import Mathlib

/-!
# Verification of the TaxShield paystub app (src/app.py)

Shallow embedding of the logic of `app.py`: the tax computation
(`main`, lines 274-278), the rate limiter (`check_rate_limit`), the helper
`safe_float`, the payment fingerprint logic (`create_stripe_session`,
`check_payment_status`) and the paywall state machine of `main`.

Monetary amounts are Python floats in the source; here they are embedded as
exact rationals (`ℚ`).  Python's two-decimal float formatting
`f"{v:.2f}"` is embedded as exact decimal rendering of the rational rounded
half-up to a whole number of cents (the source's round-half-even on binary
floats and the sign of a negative zero are idealised away; no property below
depends on those corners).  External collaborators (Stripe, the extraction
API, the wall clock) are passed in as explicit parameters.
-/

namespace TaxShield

/-! ## Decimal rendering (embedding of Python `f-string` `:.2f` formatting) -/

/-- One decimal digit character: `digitChar k` is the character for `k % 10`. -/
def digitChar (n : ℕ) : Char := Char.ofNat (48 + n % 10)

/-- Fuel-indexed most-significant-first decimal digits of a natural number. -/
def natCharsAux : ℕ → ℕ → List Char
  | 0, _ => []
  | fuel + 1, n =>
    if n < 10 then [digitChar n]
    else natCharsAux fuel (n / 10) ++ [digitChar (n % 10)]

/-- Decimal digit string of a natural number (`n + 1` fuel always suffices). -/
def natChars (n : ℕ) : List Char := natCharsAux (n + 1) n

/-- Two-digit zero-padded rendering of `n < 100` (cents part). -/
def twoChars (n : ℕ) : List Char :=
  (if n < 10 then ['0'] else []) ++ natChars n

/-- The amount in whole cents after rounding (half-up) to two decimals:
`⌊q * 100 + 1/2⌋`, computed on the numerator and denominator so that it
kernel-evaluates (see `cents_eq_floor`). -/
def cents (q : ℚ) : ℤ := (200 * q.num + (q.den : ℤ)) / (2 * (q.den : ℤ))

/-- Embedding of Python `f"{float(v):.2f}"`: render a rational with exactly
two decimal places. -/
def fmt2 (q : ℚ) : String :=
  let c := cents q
  ⟨(if c < 0 then ['-'] else []) ++
    natChars (c.natAbs / 100) ++ '.' :: twoChars (c.natAbs % 100)⟩

/-! ## Security constant and helpers (`app.py` lines 14-32) -/

/-- Constant `MAX_FILE_SIZE = 5 * 1024 * 1024` (line 14). -/
def MAX_FILE_SIZE : ℕ := 5 * 1024 * 1024

/-- Python values a JSON field can hold once parsed (the forms `safe_float`
is applied to in the source: numbers, strings, and `None` for a missing key). -/
inductive PyVal where
  | num (q : ℚ)
  | str (s : String)
  | none'
deriving DecidableEq

/-- Digits of a string prefix, accumulating; `none` once a non-digit shows. -/
def parseDigitsAux : List Char → ℕ → Option ℕ
  | [], acc => some acc
  | c :: cs, acc =>
    if 48 ≤ c.toNat ∧ c.toNat ≤ 57 then
      parseDigitsAux cs (acc * 10 + (c.toNat - 48))
    else none

/-- Parse a nonempty all-digit string. -/
def parseDigits (l : List Char) : Option ℕ :=
  if l = [] then none else parseDigitsAux l 0

/-- Embedding of Python `float(s)` on decimal strings: optional sign,
integer part, optional fractional part.  (Exotic accepted forms such as
`inf`, `nan` or exponents are not modelled; no claim depends on them.) -/
def pyFloatOfChars (l : List Char) : Option ℚ :=
  let signed : List Char × Bool :=
    match l with
    | '-' :: rest => (rest, true)
    | '+' :: rest => (rest, false)
    | _ => (l, false)
  let body := signed.1
  let intPart := body.takeWhile (fun c => 48 ≤ c.toNat ∧ c.toNat ≤ 57)
  let rest := body.dropWhile (fun c => 48 ≤ c.toNat ∧ c.toNat ≤ 57)
  let mag : Option ℚ :=
    match rest with
    | [] => (parseDigits intPart).map (fun n => (n : ℚ))
    | '.' :: frac =>
      match parseDigits intPart, parseDigits frac with
      | some n, some f => some ((n : ℚ) + (f : ℚ) / ((10 : ℚ) ^ frac.length))
      | some n, none => if frac = [] ∧ intPart ≠ [] then some ((n : ℚ)) else none
      | none, some f =>
        if intPart = [] then some ((f : ℚ) / ((10 : ℚ) ^ frac.length)) else none
      | none, none => none
    | _ => none
  mag.map (fun q => if signed.2 then -q else q)

/-- Embedding of Python `float(val)` as a fallible conversion: succeeds on
numbers and parseable decimal strings, fails (raises) otherwise. -/
def pyFloat : PyVal → Option ℚ
  | .num q => some q
  | .str s => pyFloatOfChars s.data
  | .none' => none

/-- Embedding of `safe_float` (lines 17-21): `float(val)` with every exception mapped
to `0.0`. -/
def safe_float (v : PyVal) : ℚ := (pyFloat v).getD 0

/-- Embedding of `check_rate_limit` (lines 23-32), as a function of the stored
`last_scan` timestamp (absent on a fresh session, then initialised to `0`)
and the current wall-clock time.  Returns the new stored timestamp and
whether the scan was accepted (`st.stop()` on the cooldown branch means
rejected). -/
def check_rate_limit (last_scan : Option ℚ) (now : ℚ) : Option ℚ × Bool :=
  let ls := last_scan.getD 0
  if now - ls < 30 then (some ls, false)
  else (some now, true)

/-! ## Tax computation (`main`, lines 274-278) -/

/-- Result of the computation step. -/
structure ComputationResult where
  ot_exempt : ℚ
  dt_exempt : ℚ
  tips_capped : ℚ
  total_exempt : ℚ
  est_refund : ℚ
deriving DecidableEq

/-- The pure computation of `main` lines 274-278:
`ot_exempt = ot_gross / 3.0`, `dt_exempt = dt_gross / 4.0`,
`tips_capped = min(tips, 25000.00)`, `total_exempt` their sum,
`est_refund = total_exempt * 0.22`. -/
def compute (ot_gross dt_gross tips : ℚ) : ComputationResult :=
  let ot_exempt := ot_gross / 3
  let dt_exempt := dt_gross / 4
  let tips_capped := min tips 25000
  let total_exempt := ot_exempt + dt_exempt + tips_capped
  ⟨ot_exempt, dt_exempt, tips_capped, total_exempt, total_exempt * (22 / 100)⟩

/-! ## Payment fingerprints (`app.py` lines 142-188) -/

/-- The fingerprint string of `create_stripe_session` line 148 and
`check_payment_status` line 181:
`f"{float(ot):.2f}|{float(dt):.2f}|{float(tips):.2f}|{nonce}"`. -/
def fingerprint (ot dt tips : ℚ) (nonce : String) : String :=
  fmt2 ot ++ "|" ++ fmt2 dt ++ "|" ++ fmt2 tips ++ "|" ++ nonce

/-- A checkout session held at the payment provider: its payment status and
the `data_fingerprint` metadata entry (absent when the session was created
without one). -/
structure StripeSession where
  payment_status : String
  data_fingerprint : Option String
deriving DecidableEq

/-- The provider's session store, keyed by session id.  `Session.retrieve`
on an id with no entry raises, which `check_payment_status` catches. -/
abbrev Store := List (String × StripeSession)

/-- Lookup of a session by id, as `stripe.checkout.Session.retrieve` does. -/
def retrieve (store : Store) (sid : String) : Option StripeSession :=
  (store.find? (fun p => p.1 = sid)).map Prod.snd

/-- Embedding of `check_payment_status(session_id, current_ot, current_dt, current_tips)`
(lines 170-188).  The session-held nonce (`st.session_state.get('payment_nonce', "")`)
is the `nonce` parameter; a failing `retrieve` is the exception branch,
answered `(False, "Error")`. -/
def check_payment_status (store : Store) (nonce : String) (session_id : String)
    (current_ot current_dt current_tips : ℚ) : Bool × String :=
  match retrieve store session_id with
  | none => (false, "Error")
  | some session =>
    if session.payment_status ≠ "paid" then (false, "Not Paid")
    else
      let stored_fingerprint := session.data_fingerprint.getD ""
      let current_fingerprint := fingerprint current_ot current_dt current_tips nonce
      if stored_fingerprint ≠ current_fingerprint then (false, "Mismatch")
      else (true, "Success")

/-- The fingerprint minted by `create_stripe_session(ot_val, dt_val, tips_val)`
(lines 142-148): the fresh nonce is drawn outside the embedding and passed in. -/
def create_fingerprint (ot_val dt_val tips_val : ℚ) (nonce : String) : String :=
  fingerprint ot_val dt_val tips_val nonce

/-- The fingerprint as minted from `main` line 313, which passes the already
capped `tips_capped = min(tips, 25000.00)` as `tips_val`. -/
def main_initiate_fingerprint (ot dt tips : ℚ) (nonce : String) : String :=
  create_fingerprint ot dt (min tips 25000) nonce

/-- The confirmation call as issued from `main` line 333, which passes
`tips_capped` as the current tips value. -/
def main_confirm (store : Store) (nonce : String) (sid : String)
    (ot dt tips : ℚ) : Bool × String :=
  check_payment_status store nonce sid ot dt (min tips 25000)

/-! ## Extraction client (`analyze_paystub_smart`, lines 52-97) -/

/-- A parsed JSON object, as a Python dict: keys to values. -/
abbrev PyDict := List (String × PyVal)

/-- Python `dict.get(k)` with no default: `None` when the key is absent. -/
def dictGet (d : PyDict) (k : String) : PyVal :=
  ((d.find? (fun p => p.1 = k)).map Prod.snd).getD .none'

/-- Python `"error" in result`. -/
def hasError (d : PyDict) : Bool := d.any (fun p => p.1 = "error")

/-- The externally determined outcome of the `requests.post` call in
`analyze_paystub_smart`: either the request raised, or a response came back
with a status code, a body text, and — for the 200 branch — the result of
extracting `candidates[0]...text` and `json.loads` on it (`none` when any
step of that raises). -/
inductive HttpResult where
  | exn (msg : String)
  | resp (status : ℕ) (body : String) (parsed : Option PyDict)
deriving DecidableEq

/-- How far the preliminaries of `analyze_paystub_smart` got: missing API
key (line 54), `get_best_model` error (line 57), or a request issued with
outcome `r`. -/
inductive ExtractCall where
  | missingKey
  | modelError (msg : String)
  | http (r : HttpResult)
deriving DecidableEq

/-- Embedding of `analyze_paystub_smart` (lines 52-97) as a function of the external
outcomes: every failure is a dict tagged with an `"error"` key, never an
exception. -/
def analyze_paystub_smart : ExtractCall → PyDict
  | .missingKey => [("error", .str "🚨 STOP: API Key missing.")]
  | .modelError m => [("error", .str ("Model Discovery Error: " ++ m))]
  | .http (.exn m) => [("error", .str ("Connection Failed: " ++ m))]
  | .http (.resp status body parsed) =>
    if status = 200 then
      match parsed with
      | some d => d
      | none => [("error", .str "AI Parsing Error")]
    else [("error", .str ("Google Error: " ++ body))]

/-! ## The session state machine of `main` (lines 197-344) -/

/-- The per-session state of `main`: the `st.session_state` keys
(lines 24-25, 201-205) plus the three amount widgets (lines 270-272). -/
structure SessionState where
  last_scan : Option ℚ
  stripe_session_id : Option String
  stripe_url : Option String
  paid : Bool
  report_data : Option PyDict
  payment_nonce : String
  ot_gross : ℚ
  dt_gross : ℚ
  tips : ℚ
deriving DecidableEq

/-- The freshly initialised session (lines 24-25 and 201-205; also the
state after `st.session_state.clear()` on Start Over, line 295). -/
def initState : SessionState :=
  { last_scan := none, stripe_session_id := none, stripe_url := none,
    paid := false, report_data := none, payment_nonce := "",
    ot_gross := 0, dt_gross := 0, tips := 0 }

/-- Embedding of `reset_payment` (lines 191-194). -/
def reset_payment (st : SessionState) : SessionState :=
  { st with stripe_url := none, stripe_session_id := none, paid := false }

/-- What the scan form handler reported to the user. -/
inductive ScanOutcome where
  | noFile
  | tooLarge
  | rateLimited
  | extractError
  | ok
deriving DecidableEq

/-- The scan form submission handler (lines 237-255): `reset_payment`,
then missing-file check, then the size ceiling, then the rate limit, then
the extraction call.  The boolean records whether `analyze_paystub_smart`
was invoked. -/
def scan_step (st : SessionState) (hasFile : Bool) (size : ℕ) (now : ℚ)
    (call : ExtractCall) : SessionState × ScanOutcome × Bool :=
  let st1 := reset_payment st
  if ¬hasFile then (st1, .noFile, false)
  else if MAX_FILE_SIZE < size then (st1, .tooLarge, false)
  else
    let rl := check_rate_limit st1.last_scan now
    let st2 := { st1 with last_scan := rl.1 }
    if rl.2 = false then (st2, .rateLimited, false)
    else
      let result := analyze_paystub_smart call
      if hasError result then (st2, .extractError, true)
      else
        let st3 := { st2 with report_data := some result,
                              ot_gross := safe_float (dictGet result "ytd_overtime_income"),
                              dt_gross := safe_float (dictGet result "ytd_double_time_income"),
                              tips := safe_float (dictGet result "ytd_tip_income") }
        (st3, .ok, true)

/-- One user interaction (or external event) against the session.  The
nondeterministic outside inputs — the admin-bypass flag, the fresh nonce,
the Stripe call outcome, the extraction outcome, the wall clock — are
carried on the event. -/
inductive Event where
  | urlSession (sid : String)
  | scan (hasFile : Bool) (size : ℕ) (now : ℚ) (call : ExtractCall)
  | editOt (v : ℚ)
  | editDt (v : ℚ)
  | editTips (v : ℚ)
  | adminUnlock (bypass : Bool)
  | initiate (bypass : Bool) (nonce : String) (ok : Bool) (sid url : String)
  | confirm (bypass : Bool)
  | startOver
  | providerPays (sid : String)
deriving DecidableEq

/-- A checkout session completing at the provider: its status becomes
`"paid"`; the stored metadata is untouched. -/
def markPaid (store : Store) (sid : String) : Store :=
  store.map (fun p => if p.1 = sid then (p.1, ⟨"paid", p.2.data_fingerprint⟩) else p)

/-- The transition function of `main`'s rerun loop: the branch of the
script the event drives, with widgets honouring their `disabled=is_locked`
flag (lines 234-235 and 270-272). -/
def step (st : SessionState) (store : Store) : Event → SessionState × Store
  | .urlSession sid => ({ st with stripe_session_id := some sid }, store)
  | .scan hasFile size now call =>
    if st.paid then (st, store)
    else ((scan_step st hasFile size now call).1, store)
  | .editOt v =>
    if st.report_data.isSome ∧ ¬st.paid then (reset_payment { st with ot_gross := v }, store)
    else (st, store)
  | .editDt v =>
    if st.report_data.isSome ∧ ¬st.paid then (reset_payment { st with dt_gross := v }, store)
    else (st, store)
  | .editTips v =>
    if st.report_data.isSome ∧ ¬st.paid then (reset_payment { st with tips := v }, store)
    else (st, store)
  | .adminUnlock bypass =>
    if st.report_data.isSome ∧ ¬st.paid ∧ bypass then ({ st with paid := true }, store)
    else (st, store)
  | .initiate bypass nonce ok sid url =>
    if st.report_data.isSome ∧ ¬st.paid ∧ ¬bypass ∧ st.stripe_url = none then
      let fp := main_initiate_fingerprint st.ot_gross st.dt_gross st.tips nonce
      let st1 := { st with payment_nonce := nonce }
      if ok then
        ({ st1 with stripe_session_id := some sid, stripe_url := some url },
         (sid, ⟨"unpaid", some fp⟩) :: store)
      else (st1, store)
    else (st, store)
  | .confirm bypass =>
    if st.report_data.isSome ∧ ¬st.paid ∧ ¬bypass then
      match st.stripe_session_id with
      | none => (st, store)
      | some sid =>
        let r := main_confirm store st.payment_nonce sid st.ot_gross st.dt_gross st.tips
        if r.1 then ({ st with paid := true }, store)
        else if r.2 = "Mismatch" then (reset_payment st, store)
        else (st, store)
    else (st, store)
  | .startOver =>
    if st.report_data.isSome ∧ st.paid then (initState, store) else (st, store)
  | .providerPays sid => (st, markPaid store sid)

/-! ## Lemmas about the decimal rendering -/

theorem cents_eq_floor (q : ℚ) : cents q = ⌊q * 100 + 1 / 2⌋ := by
  have hd : (q.den : ℚ) ≠ 0 := by positivity
  have hq : (q.num : ℚ) = q * q.den := (div_eq_iff hd).mp (Rat.num_div_den q)
  have h : q * 100 + 1 / 2 = ((200 * q.num + (q.den : ℤ) : ℤ) : ℚ) / ((2 * q.den : ℕ) : ℚ) := by
    rw [eq_div_iff (by positivity)]
    push_cast
    rw [hq]; ring
  rw [h, Rat.floor_intCast_div_natCast]
  simp only [cents]
  push_cast
  ring_nf

theorem digitChar_eq_mod (n : ℕ) : digitChar n = digitChar (n % 10) := by
  simp [digitChar, Nat.mod_mod_of_dvd]

theorem digitChar_toNat (n : ℕ) : (digitChar n).toNat = 48 + n % 10 := by
  have h : n % 10 < 10 := Nat.mod_lt _ (by norm_num)
  have key : ∀ m, m < 10 → (Char.ofNat (48 + m)).toNat = 48 + m := by decide
  simpa [digitChar] using key (n % 10) h

theorem digitChar_ne_pipe (n : ℕ) : digitChar n ≠ '|' := by
  intro h
  have h1 := digitChar_toNat n
  rw [h] at h1
  have h2 : ('|').toNat = 124 := by decide
  omega

theorem digitChar_ne_dot (n : ℕ) : digitChar n ≠ '.' := by
  intro h
  have h1 := digitChar_toNat n
  rw [h] at h1
  have h2 : ('.').toNat = 46 := by decide
  omega

theorem digitChar_ne_minus (n : ℕ) : digitChar n ≠ '-' := by
  intro h
  have h1 := digitChar_toNat n
  rw [h] at h1
  have h2 : ('-').toNat = 45 := by decide
  omega

theorem natCharsAux_digits (fuel : ℕ) :
    ∀ n c, c ∈ natCharsAux fuel n → ∃ k, c = digitChar k := by
  induction fuel with
  | zero => intro n c h; simp [natCharsAux] at h
  | succ fuel ih =>
    intro n c h
    rw [natCharsAux] at h
    by_cases hn : n < 10
    · rw [if_pos hn] at h
      simp at h
      exact ⟨n, h⟩
    · rw [if_neg hn] at h
      rcases List.mem_append.mp h with h1 | h1
      · exact ih _ _ h1
      · simp at h1
        exact ⟨n % 10, h1⟩

theorem natChars_digits (n : ℕ) : ∀ c ∈ natChars n, ∃ k, c = digitChar k :=
  fun c hc => natCharsAux_digits (n + 1) n c hc

/-- Value extracted back from a digit string. -/
def charsVal (l : List Char) : ℕ :=
  l.foldl (fun acc c => acc * 10 + (c.toNat - 48)) 0

theorem charsVal_append_digit (l : List Char) (c : Char) :
    charsVal (l ++ [c]) = charsVal l * 10 + (c.toNat - 48) := by
  simp [charsVal, List.foldl_append]

theorem natCharsAux_val (fuel : ℕ) :
    ∀ n, n < 10 ^ fuel → charsVal (natCharsAux fuel n) = n := by
  induction fuel with
  | zero => intro n h; interval_cases n; simp [natCharsAux, charsVal]
  | succ fuel ih =>
    intro n h
    rw [natCharsAux]
    by_cases hn : n < 10
    · rw [if_pos hn]
      simp [charsVal, digitChar_toNat, Nat.mod_eq_of_lt hn]
    · rw [if_neg hn]
      rw [charsVal_append_digit, digitChar_toNat]
      have hdiv : n / 10 < 10 ^ fuel := by
        rw [Nat.div_lt_iff_lt_mul (by norm_num)]
        calc n < 10 ^ (fuel + 1) := h
        _ = 10 ^ fuel * 10 := by ring
      rw [ih _ hdiv]
      omega

theorem natChars_val (n : ℕ) : charsVal (natChars n) = n := by
  have h : n < 10 ^ (n + 1) :=
    lt_of_lt_of_le (Nat.lt_pow_self (by norm_num) n)
      (Nat.pow_le_pow_right (by norm_num) (Nat.le_succ n))
  exact natCharsAux_val (n + 1) n h

theorem natChars_inj {a b : ℕ} (h : natChars a = natChars b) : a = b := by
  have := natChars_val a
  rw [h, natChars_val] at this
  omega

theorem natChars_ne_nil (n : ℕ) : natChars n ≠ [] := by
  rw [natChars, natCharsAux]
  by_cases hn : n < 10
  · rw [if_pos hn]; simp
  · rw [if_neg hn]; simp

theorem charsVal_cons_zero (l : List Char) : charsVal ('0' :: l) = charsVal l := by
  simp [charsVal]

theorem twoChars_val (n : ℕ) : charsVal (twoChars n) = n := by
  rw [twoChars]
  by_cases hn : n < 10
  · rw [if_pos hn]
    simpa [charsVal_cons_zero] using natChars_val n
  · rw [if_neg hn]
    simpa using natChars_val n

theorem twoChars_inj {a b : ℕ} (h : twoChars a = twoChars b) : a = b := by
  have := twoChars_val a
  rw [h, twoChars_val] at this
  omega

theorem twoChars_digits (n : ℕ) : ∀ c ∈ twoChars n, ∃ k, c = digitChar k := by
  intro c hc
  rw [twoChars] at hc
  rcases List.mem_append.mp hc with h1 | h1
  · by_cases hn : n < 10
    · rw [if_pos hn] at h1
      simp at h1
      exact ⟨0, by simp [h1, digitChar]⟩
    · rw [if_neg hn] at h1
      simp at h1
  · exact natChars_digits n c h1

theorem dot_not_mem_natChars (n : ℕ) : '.' ∉ natChars n := by
  intro hc
  rcases natChars_digits n _ hc with ⟨k, hk⟩
  exact digitChar_ne_dot k hk.symm

theorem append_sep_inj (sep : Char) :
    ∀ (l1 l2 r1 r2 : List Char), sep ∉ l1 → sep ∉ l2 →
      l1 ++ sep :: r1 = l2 ++ sep :: r2 → l1 = l2 ∧ r1 = r2 := by
  intro l1
  induction l1 with
  | nil =>
    intro l2 r1 r2 _ h2 heq
    cases l2 with
    | nil =>
      simp at heq
      exact ⟨rfl, heq⟩
    | cons c l2' =>
      simp at heq
      exact absurd (heq.1 ▸ List.mem_cons_self c l2') h2
  | cons c l1' ih =>
    intro l2 r1 r2 h1 h2 heq
    cases l2 with
    | nil =>
      simp at heq
      exact absurd (heq.1 ▸ List.mem_cons_self c l1') h1
    | cons c2 l2' =>
      simp at heq
      obtain ⟨rfl, heq⟩ := heq
      have h1' : sep ∉ l1' := fun hm => h1 (List.mem_cons_of_mem _ hm)
      have h2' : sep ∉ l2' := fun hm => h2 (List.mem_cons_of_mem _ hm)
      obtain ⟨e1, e2⟩ := ih l2' r1 r2 h1' h2' heq
      exact ⟨by rw [e1], e2⟩

theorem fmt2_data (q : ℚ) :
    (fmt2 q).data =
      (if cents q < 0 then ['-'] else []) ++
        natChars ((cents q).natAbs / 100) ++ '.' :: twoChars ((cents q).natAbs % 100) := rfl

/-- The two-decimal rendering determines the rounded cents value. -/
theorem fmt2_inj {a b : ℚ} (h : fmt2 a = fmt2 b) : cents a = cents b := by
  have hd := congrArg String.data h
  rw [fmt2_data, fmt2_data] at hd
  by_cases ha : cents a < 0 <;> by_cases hb : cents b < 0
  · rw [if_pos ha, if_pos hb] at hd
    simp only [List.singleton_append] at hd
    obtain ⟨-, hd⟩ := List.cons.inj hd
    obtain ⟨e1, e2⟩ := append_sep_inj '.' _ _ _ _
      (dot_not_mem_natChars _) (dot_not_mem_natChars _) hd
    have hx := natChars_inj e1
    have hy := twoChars_inj e2
    omega
  · rw [if_pos ha, if_neg hb] at hd
    simp only [List.singleton_append, List.nil_append] at hd
    cases hnc : natChars ((cents b).natAbs / 100) with
    | nil => exact absurd hnc (natChars_ne_nil _)
    | cons c rest =>
      rw [hnc, List.cons_append] at hd
      have hc : c = '-' := (List.cons.injEq _ _ _ _ ▸ hd).1.symm
      have hmem : c ∈ natChars ((cents b).natAbs / 100) := hnc ▸ List.mem_cons_self c rest
      rcases natChars_digits _ _ hmem with ⟨k, rfl⟩
      exact absurd hc (digitChar_ne_minus k)
  · rw [if_neg ha, if_pos hb] at hd
    simp only [List.singleton_append, List.nil_append] at hd
    cases hnc : natChars ((cents a).natAbs / 100) with
    | nil => exact absurd hnc (natChars_ne_nil _)
    | cons c rest =>
      rw [hnc, List.cons_append] at hd
      have hc : c = '-' := (List.cons.injEq _ _ _ _ ▸ hd).1
      have hmem : c ∈ natChars ((cents a).natAbs / 100) := hnc ▸ List.mem_cons_self c rest
      rcases natChars_digits _ _ hmem with ⟨k, rfl⟩
      exact absurd hc (digitChar_ne_minus k)
  · rw [if_neg ha, if_neg hb] at hd
    simp only [List.nil_append] at hd
    obtain ⟨e1, e2⟩ := append_sep_inj '.' _ _ _ _
      (dot_not_mem_natChars _) (dot_not_mem_natChars _) hd
    have hx := natChars_inj e1
    have hy := twoChars_inj e2
    omega

theorem pipe_not_mem_fmt2 (q : ℚ) : '|' ∉ (fmt2 q).data := by
  rw [fmt2_data]
  intro hc
  rcases List.mem_append.mp hc with h1 | h1
  · rcases List.mem_append.mp h1 with h2 | h2
    · by_cases hq : cents q < 0
      · rw [if_pos hq] at h2
        simp at h2
      · rw [if_neg hq] at h2
        simp at h2
    · rcases natChars_digits _ _ h2 with ⟨k, hk⟩
      exact digitChar_ne_pipe k hk.symm
  · rcases List.mem_cons.mp h1 with h2 | h2
    · simp at h2
    · rcases twoChars_digits _ _ h2 with ⟨k, hk⟩
      exact digitChar_ne_pipe k hk.symm

theorem fingerprint_data (o d t : ℚ) (n : String) :
    (fingerprint o d t n).data =
      (fmt2 o).data ++ '|' :: ((fmt2 d).data ++ '|' :: ((fmt2 t).data ++ '|' :: n.data)) := by
  have hp : ("|" : String).data = ['|'] := rfl
  simp [fingerprint, String.data_append, hp]

/-- A fingerprint determines its four components: the three formatted
amounts and the nonce. -/
theorem fingerprint_inj {o1 d1 t1 o2 d2 t2 : ℚ} {n1 n2 : String}
    (h : fingerprint o1 d1 t1 n1 = fingerprint o2 d2 t2 n2) :
    fmt2 o1 = fmt2 o2 ∧ fmt2 d1 = fmt2 d2 ∧ fmt2 t1 = fmt2 t2 ∧ n1 = n2 := by
  have hd := congrArg String.data h
  rw [fingerprint_data, fingerprint_data] at hd
  obtain ⟨h1, hd⟩ := append_sep_inj '|' _ _ _ _ (pipe_not_mem_fmt2 o1) (pipe_not_mem_fmt2 o2) hd
  obtain ⟨h2, hd⟩ := append_sep_inj '|' _ _ _ _ (pipe_not_mem_fmt2 d1) (pipe_not_mem_fmt2 d2) hd
  obtain ⟨h3, hd⟩ := append_sep_inj '|' _ _ _ _ (pipe_not_mem_fmt2 t1) (pipe_not_mem_fmt2 t2) hd
  exact ⟨String.ext h1, String.ext h2, String.ext h3, String.ext hd⟩

/-! ## Behaviour of `check_payment_status` -/

theorem check_payment_status_none {store : Store} {sid : String} (nonce : String)
    (o d t : ℚ) (h : retrieve store sid = none) :
    check_payment_status store nonce sid o d t = (false, "Error") := by
  simp [check_payment_status, h]

theorem check_payment_status_not_paid {store : Store} {sid : String} {s : StripeSession}
    (nonce : String) (o d t : ℚ) (h : retrieve store sid = some s)
    (hp : s.payment_status ≠ "paid") :
    check_payment_status store nonce sid o d t = (false, "Not Paid") := by
  simp [check_payment_status, h, hp]

theorem check_payment_status_mismatch {store : Store} {sid : String} {s : StripeSession}
    (nonce : String) (o d t : ℚ) (h : retrieve store sid = some s)
    (hp : s.payment_status = "paid")
    (hf : s.data_fingerprint.getD "" ≠ fingerprint o d t nonce) :
    check_payment_status store nonce sid o d t = (false, "Mismatch") := by
  simp [check_payment_status, h, hp, hf]

theorem check_payment_status_success {store : Store} {sid : String} {s : StripeSession}
    (nonce : String) (o d t : ℚ) (h : retrieve store sid = some s)
    (hp : s.payment_status = "paid")
    (hf : s.data_fingerprint.getD "" = fingerprint o d t nonce) :
    check_payment_status store nonce sid o d t = (true, "Success") := by
  simp [check_payment_status, h, hp, hf]

theorem check_payment_status_true_iff (store : Store) (nonce sid : String) (o d t : ℚ) :
    check_payment_status store nonce sid o d t = (true, "Success") ↔
      ∃ s, retrieve store sid = some s ∧ s.payment_status = "paid" ∧
        s.data_fingerprint.getD "" = fingerprint o d t nonce := by
  constructor
  · intro h
    cases hr : retrieve store sid with
    | none => rw [check_payment_status_none nonce o d t hr] at h; simp at h
    | some s =>
      by_cases hp : s.payment_status = "paid"
      · by_cases hf : s.data_fingerprint.getD "" = fingerprint o d t nonce
        · exact ⟨s, rfl, hp, hf⟩
        · rw [check_payment_status_mismatch nonce o d t hr hp hf] at h; simp at h
      · rw [check_payment_status_not_paid nonce o d t hr hp] at h; simp at h
  · rintro ⟨s, hr, hp, hf⟩
    exact check_payment_status_success nonce o d t hr hp hf

theorem check_payment_status_fst_true {store : Store} {nonce sid : String} {o d t : ℚ}
    (h : (check_payment_status store nonce sid o d t).1 = true) :
    check_payment_status store nonce sid o d t = (true, "Success") := by
  cases hr : retrieve store sid with
  | none => rw [check_payment_status_none nonce o d t hr] at h ⊢; simp at h
  | some s =>
    by_cases hp : s.payment_status = "paid"
    · by_cases hf : s.data_fingerprint.getD "" = fingerprint o d t nonce
      · exact check_payment_status_success nonce o d t hr hp hf
      · rw [check_payment_status_mismatch nonce o d t hr hp hf] at h; simp at h
    · rw [check_payment_status_not_paid nonce o d t hr hp] at h; simp at h

/-! ## Claim theorems -/

/-- C1: `check_payment_status` returns the paid result `(True, "Success")`
exactly when the provider reports status `"paid"` and the stored fingerprint
is string-equal to the one recomputed from the current amounts and the
session-held nonce; on a failed lookup it returns `(False, "Error")` and on
an unpaid status `(False, "Not Paid")` — it fails closed instead of
raising. -/
theorem claim_C1 : ∀ (store : Store) (nonce sid : String) (o d t : ℚ),
    (check_payment_status store nonce sid o d t = (true, "Success") ↔
      ∃ s, retrieve store sid = some s ∧ s.payment_status = "paid" ∧
        s.data_fingerprint.getD "" = fingerprint o d t nonce) ∧
    ((check_payment_status store nonce sid o d t).1 = true →
      check_payment_status store nonce sid o d t = (true, "Success")) ∧
    (retrieve store sid = none →
      check_payment_status store nonce sid o d t = (false, "Error")) ∧
    (∀ s, retrieve store sid = some s → s.payment_status ≠ "paid" →
      check_payment_status store nonce sid o d t = (false, "Not Paid")) := by
  intro store nonce sid o d t
  exact ⟨check_payment_status_true_iff store nonce sid o d t,
    fun h => check_payment_status_fst_true h,
    fun h => check_payment_status_none nonce o d t h,
    fun s hr hp => check_payment_status_not_paid nonce o d t hr hp⟩

/-- C1 witness: on a store with no session for the id, the check fails
closed with `(False, "Error")`. -/
theorem claim_C1_witness :
    check_payment_status [] "n" "cs_1" 1 2 3 = (false, "Error") :=
  (claim_C1 [] "n" "cs_1" 1 2 3).2.2.1 rfl

/-- C4: for all non-negative inputs the computation step produces
`o/3`, `d/4`, `min t 25000`, their sum, and `0.22` times the sum; the
scenario `(9000, 4000, 30000)` yields total exempt `29000` and refund
`6380`. -/
theorem claim_C4 :
    (∀ o d t : ℚ, 0 ≤ o → 0 ≤ d → 0 ≤ t →
      (compute o d t).ot_exempt = o / 3 ∧
      (compute o d t).dt_exempt = d / 4 ∧
      (compute o d t).tips_capped = min t 25000 ∧
      (compute o d t).total_exempt = o / 3 + d / 4 + min t 25000 ∧
      (compute o d t).est_refund = (o / 3 + d / 4 + min t 25000) * (22 / 100)) ∧
    (compute 9000 4000 30000).total_exempt = 29000 ∧
    (compute 9000 4000 30000).est_refund = 6380 := by
  refine ⟨fun o d t _ _ _ => ⟨rfl, rfl, rfl, rfl, rfl⟩, ?_, ?_⟩ <;>
    norm_num [compute, min_def]

/-- C4 witness: the general statement applied at `(9000, 4000, 30000)`. -/
theorem claim_C4_witness :
    (compute 9000 4000 30000).total_exempt = 9000 / 3 + 4000 / 4 + min (30000 : ℚ) 25000 :=
  (claim_C4.1 9000 4000 30000 (by norm_num) (by norm_num) (by norm_num)).2.2.2.1

/-- C9: the tip cap makes all tip inputs at or above `25000` equivalent:
`(o, d, 25000)` and `(o, d, 50000)` give identical exempt-tip, total-exempt
and refund values. -/
theorem claim_C9 : ∀ o d : ℚ,
    (compute o d 25000).tips_capped = (compute o d 50000).tips_capped ∧
    (compute o d 25000).total_exempt = (compute o d 50000).total_exempt ∧
    (compute o d 25000).est_refund = (compute o d 50000).est_refund := by
  intro o d
  have h1 : min (25000 : ℚ) 25000 = 25000 := by norm_num
  have h2 : min (50000 : ℚ) 25000 = 25000 := by norm_num
  refine ⟨?_, ?_, ?_⟩ <;> simp [compute, h1, h2]

/-- C7: a scan fewer than 30 seconds after the last accepted scan is
rejected with the stored timestamp unchanged; one at 30 seconds or later is
accepted and stores the current time; on a fresh session (no prior scan,
`last_scan` initialised to `0`) any wall-clock time `now ≥ 30` — true of
real epoch time — is accepted. -/
theorem claim_C7 : ∀ last now : ℚ,
    (now - last < 30 → check_rate_limit (some last) now = (some last, false)) ∧
    (30 ≤ now - last → check_rate_limit (some last) now = (some now, true)) ∧
    (30 ≤ now → check_rate_limit none now = (some now, true)) := by
  intro last now
  refine ⟨fun h => ?_, fun h => ?_, fun h => ?_⟩
  · simp only [check_rate_limit, Option.getD_some]
    rw [if_pos h]
  · simp only [check_rate_limit, Option.getD_some]
    rw [if_neg (not_lt.mpr h)]
  · simp only [check_rate_limit, Option.getD_none, sub_zero]
    rw [if_neg (not_lt.mpr h)]

/-- C7 witness: a second scan 10 seconds after the first is rejected and
the timestamp kept; one 45 seconds after is accepted and the timestamp
updated. -/
theorem claim_C7_witness :
    check_rate_limit (some 0) 10 = (some 0, false) ∧
    check_rate_limit (some 0) 45 = (some 45, true) :=
  ⟨(claim_C7 0 10).1 (by norm_num), (claim_C7 0 45).2.1 (by norm_num)⟩

/-- C8: a submitted file larger than `MAX_FILE_SIZE` makes the upload
handler report the size error and never invoke `analyze_paystub_smart`
(the boolean in the result records whether the extraction call was made). -/
theorem claim_C8 : ∀ (st : SessionState) (size : ℕ) (now : ℚ) (call : ExtractCall),
    MAX_FILE_SIZE < size →
    (scan_step st true size now call).2 = (ScanOutcome.tooLarge, false) := by
  intro st size now call h
  simp [scan_step, h]

/-- C8 witness: a file one byte over the 5 MB ceiling is rejected with no
extraction call. -/
theorem claim_C8_witness :
    (scan_step initState true (5 * 1024 * 1024 + 1) 0 ExtractCall.missingKey).2 =
      (ScanOutcome.tooLarge, false) :=
  claim_C8 initState (5 * 1024 * 1024 + 1) 0 ExtractCall.missingKey (by norm_num [MAX_FILE_SIZE])

/-- The spec's "tagged error result with all numeric fields defaulted to
0.0": the dict carries the `"error"` tag and each numeric YTD field reads
back as `0.0` through `safe_float`. -/
def errorResultZeroed (d : PyDict) : Prop :=
  hasError d = true ∧
  safe_float (dictGet d "ytd_overtime_income") = 0 ∧
  safe_float (dictGet d "ytd_double_time_income") = 0 ∧
  safe_float (dictGet d "ytd_tip_income") = 0

/-- C5: every malformed extraction response — transport failure, non-200
status, or unparseable JSON — yields a tagged error dict, not an exception,
whose numeric fields all default to `0.0`; and any value `float()` cannot
parse is coerced to `0.0` by `safe_float` instead of aborting. -/
theorem claim_C5 :
    (∀ m, errorResultZeroed (analyze_paystub_smart (.http (.exn m)))) ∧
    (∀ status body parsed, status ≠ 200 →
      errorResultZeroed (analyze_paystub_smart (.http (.resp status body parsed)))) ∧
    (∀ body, errorResultZeroed (analyze_paystub_smart (.http (.resp 200 body none)))) ∧
    (∀ v, pyFloat v = none → safe_float v = 0) := by
  refine ⟨fun m => ?_, fun status body parsed h => ?_, fun body => ?_, fun v h => ?_⟩
  · exact ⟨rfl, rfl, rfl, rfl⟩
  · simp only [analyze_paystub_smart, if_neg h]
    exact ⟨rfl, rfl, rfl, rfl⟩
  · exact ⟨rfl, rfl, rfl, rfl⟩
  · simp [safe_float, h]

/-- C5 witness: a 500 response and an unparseable string field. -/
theorem claim_C5_witness :
    errorResultZeroed (analyze_paystub_smart (.http (.resp 500 "boom" none))) ∧
    safe_float (.str "abc") = 0 :=
  ⟨claim_C5.2.1 500 "boom" none (by norm_num),
   claim_C5.2.2.2 (.str "abc") (by decide)⟩

/-- C2 counterexample: the claim "changing any of o, d, t between initiate
and confirm (without re-initiating) always yields Mismatch, never Paid —
including the case where only the tips value t changes" is false on the
code.  `main` passes the capped value `min(tips, 25000)` into both
fingerprints, so initiating at tips `30000` and confirming at tips `40000`
— a changed triple — still compares equal fingerprints and returns the
Paid result `(True, "Success")` once the provider reports `"paid"`. -/
theorem claim_C2_counterexample :
    (40000 : ℚ) ≠ 30000 ∧
    main_confirm
      [("cs_1", ⟨"paid", some (main_initiate_fingerprint 9000 4000 30000 "nonce-1")⟩)]
      "nonce-1" "cs_1" 9000 4000 40000 = (true, "Success") := by
  constructor
  · norm_num
  · decide

/-- C2 amended: two triples that differ in an effective component — `o`,
`d`, or the capped tips `min(t, 25000)`, compared after rounding to whole
cents as the two-decimal fingerprint formatting does — always yield the
distinct Mismatch result at confirm, never Paid; tips changes at or above
the cap are invisible to the fingerprint. -/
theorem claim_C2_amended : ∀ (store : Store) (sid nonce : String) (o d t o' d' t' : ℚ),
    retrieve store sid = some ⟨"paid", some (main_initiate_fingerprint o d t nonce)⟩ →
    (cents o ≠ cents o' ∨ cents d ≠ cents d' ∨
      cents (min t 25000) ≠ cents (min t' 25000)) →
    main_confirm store nonce sid o' d' t' = (false, "Mismatch") := by
  intro store sid nonce o d t o' d' t' hr hne
  simp only [main_confirm]
  apply check_payment_status_mismatch nonce o' d' (min t' 25000) hr rfl
  intro heq
  have heq' : fingerprint o d (min t 25000) nonce =
      fingerprint o' d' (min t' 25000) nonce := by
    simpa [main_initiate_fingerprint, create_fingerprint] using heq
  rcases fingerprint_inj heq' with ⟨h1, h2, h3, -⟩
  rcases hne with h | h | h
  · exact h (fmt2_inj h1)
  · exact h (fmt2_inj h2)
  · exact h (fmt2_inj h3)

/-- C2 amended witness: overtime changed from 1 to 5 between initiate and
confirm is reported as Mismatch. -/
theorem claim_C2_amended_witness :
    main_confirm [("cs_1", ⟨"paid", some (main_initiate_fingerprint 1 2 3 "n")⟩)]
      "n" "cs_1" 5 2 3 = (false, "Mismatch") :=
  claim_C2_amended _ "cs_1" "n" 1 2 3 5 2 3 (by decide) (Or.inl (by decide))

/-- C10: confirmation depends on the session-local nonce.  If the session's
`payment_nonce` differs from the nonce baked into the stored fingerprint —
e.g. the empty nonce of a fresh session after the payment redirect — the
check returns `(False, "Mismatch")` even though the provider reports
`"paid"`, and no amounts whatsoever can make it return a paid result. -/
theorem claim_C10 : ∀ (store : Store) (sid : String) (o d t : ℚ) (nonce nonce' : String),
    retrieve store sid = some ⟨"paid", some (fingerprint o d t nonce)⟩ →
    nonce' ≠ nonce →
    (check_payment_status store nonce' sid o d t = (false, "Mismatch") ∧
     ∀ o' d' t', (check_payment_status store nonce' sid o' d' t').1 ≠ true) := by
  intro store sid o d t nonce nonce' hr hne
  constructor
  · apply check_payment_status_mismatch nonce' o d t hr rfl
    intro heq
    rcases fingerprint_inj (show fingerprint o d t nonce = fingerprint o d t nonce' by
      simpa using heq) with ⟨-, -, -, h4⟩
    exact hne h4.symm
  · intro o' d' t' hT
    have h := check_payment_status_fst_true hT
    rcases (check_payment_status_true_iff _ _ _ _ _ _).mp h with ⟨s, hs, hp, hf⟩
    rw [hr] at hs
    obtain rfl : (⟨"paid", some (fingerprint o d t nonce)⟩ : StripeSession) = s := by
      injection hs
    rcases fingerprint_inj (show fingerprint o d t nonce = fingerprint o' d' t' nonce' by
      simpa using hf) with ⟨-, -, -, h4⟩
    exact hne h4.symm

/-- C10 witness: a fresh session (empty nonce) confirming a paid checkout
session whose fingerprint was minted under nonce `"uuid-4"` gets Mismatch,
not Paid. -/
theorem claim_C10_witness :
    check_payment_status [("cs_9", ⟨"paid", some (fingerprint 9000 4000 25000 "uuid-4")⟩)]
      "" "cs_9" 9000 4000 25000 = (false, "Mismatch") :=
  (claim_C10 _ "cs_9" 9000 4000 25000 "uuid-4" "" (by decide) (by decide)).1

theorem scan_step_paid (st : SessionState) (hasFile : Bool) (size : ℕ) (now : ℚ)
    (call : ExtractCall) : (scan_step st hasFile size now call).1.paid = false := by
  simp only [scan_step]
  split_ifs <;> simp [reset_payment]

/-- C3 counterexample: the claim "the paid flag becomes True only through a
confirmation whose token was generated for exactly the currently-displayed
amounts" is false on the code: the admin bypass button (lines 306-309) sets
`paid = True` from a state in which no payment attempt, nonce or provider
session exists at all. -/
theorem claim_C3_counterexample :
    (step { initState with report_data := some [] } [] (Event.adminUnlock true)).1.paid = true ∧
    ({ initState with report_data := some [] } : SessionState).paid = false ∧
    ({ initState with report_data := some [] } : SessionState).payment_nonce = "" ∧
    (step { initState with report_data := some [] } [] (Event.adminUnlock true)).2 = [] := by
  refine ⟨?_, rfl, rfl, ?_⟩ <;> decide

/-- C3 amended: in every step, the paid flag turns from False to True only
through the admin bypass or through a confirmation against a provider
session that is paid and whose stored fingerprint equals the one built from
exactly the currently-displayed amounts (with capped tips) and the
session-held nonce; and once paid, the three amount inputs and the scan
form are disabled, so edits leave the state unchanged. -/
theorem claim_C3_amended :
    (∀ (st : SessionState) (store : Store) (e : Event),
      (step st store e).1.paid = true →
        st.paid = true ∨ e = Event.adminUnlock true ∨
        (e = Event.confirm false ∧ ∃ sid s, st.stripe_session_id = some sid ∧
          retrieve store sid = some s ∧ s.payment_status = "paid" ∧
          s.data_fingerprint.getD "" =
            fingerprint st.ot_gross st.dt_gross (min st.tips 25000) st.payment_nonce)) ∧
    (∀ (st : SessionState) (store : Store) (v : ℚ), st.paid = true →
      (step st store (Event.editOt v)).1 = st ∧
      (step st store (Event.editDt v)).1 = st ∧
      (step st store (Event.editTips v)).1 = st) ∧
    (∀ (st : SessionState) (store : Store) (hasFile : Bool) (size : ℕ) (now : ℚ)
      (call : ExtractCall), st.paid = true →
      (step st store (Event.scan hasFile size now call)).1 = st) := by
  refine ⟨?_, ?_, ?_⟩
  · intro st store e h
    cases e with
    | urlSession sid => exact Or.inl h
    | scan hasFile size now call =>
      by_cases hp : st.paid = true
      · exact Or.inl hp
      · exfalso
        simp only [step, if_neg hp] at h
        rw [scan_step_paid] at h
        exact Bool.false_ne_true h
    | editOt v =>
      by_cases hp : st.paid = true
      · exact Or.inl hp
      · exfalso
        simp only [step] at h
        split_ifs at h with hg
        · simp [reset_payment] at h
        · exact hp h
    | editDt v =>
      by_cases hp : st.paid = true
      · exact Or.inl hp
      · exfalso
        simp only [step] at h
        split_ifs at h with hg
        · simp [reset_payment] at h
        · exact hp h
    | editTips v =>
      by_cases hp : st.paid = true
      · exact Or.inl hp
      · exfalso
        simp only [step] at h
        split_ifs at h with hg
        · simp [reset_payment] at h
        · exact hp h
    | adminUnlock b =>
      simp only [step] at h
      split_ifs at h with hg
      · exact Or.inr (Or.inl (by rw [hg.2.2]))
      · exact Or.inl h
    | initiate b nonce ok sid url =>
      left
      simp only [step] at h
      split_ifs at h <;> exact h
    | confirm b =>
      simp only [step] at h
      split_ifs at h with hg
      · obtain ⟨hrep, hnp, hb⟩ := hg
        cases hsid : st.stripe_session_id with
        | none =>
          rw [hsid] at h
          exact absurd h hnp
        | some sid =>
          rw [hsid] at h
          by_cases hr1 :
              (main_confirm store st.payment_nonce sid st.ot_gross st.dt_gross st.tips).1 = true
          · right; right
            have hb' : b = false := by simpa using hb
            have hsucc := check_payment_status_fst_true (by simpa [main_confirm] using hr1)
            rcases (check_payment_status_true_iff _ _ _ _ _ _).mp hsucc with ⟨s, hrs, hps, hfs⟩
            exact ⟨by rw [hb'], sid, s, rfl, hrs, hps, hfs⟩
          · exfalso
            by_cases hm :
                (main_confirm store st.payment_nonce sid st.ot_gross st.dt_gross st.tips).2 =
                  "Mismatch"
            · simp [hr1, hm, reset_payment] at h
            · simp [hr1, hm] at h
              exact hnp h
      · exact Or.inl h
    | startOver =>
      simp only [step] at h
      split_ifs at h with hg
      · exact absurd h (by simp [initState])
      · exact Or.inl h
    | providerPays sid => exact Or.inl h
  · intro st store v hp
    refine ⟨?_, ?_, ?_⟩ <;> simp [step, hp]
  · intro st store hasFile size now call hp
    simp [step, hp]

/-- C3 amended witness: with the report locked (paid), editing any of the
three amounts leaves the session state untouched. -/
theorem claim_C3_amended_witness :
    (step { initState with paid := true } [] (Event.editOt 5)).1 =
      { initState with paid := true } ∧
    (step { initState with paid := true } [] (Event.editDt 5)).1 =
      { initState with paid := true } ∧
    (step { initState with paid := true } [] (Event.editTips 5)).1 =
      { initState with paid := true } :=
  claim_C3_amended.2.1 { initState with paid := true } [] 5 rfl

/-- C6: a fingerprint mismatch at confirmation is surfaced as the distinct
`"Mismatch"` condition and resets the paywall to Unpaid — the session id
and checkout URL are voided, so a further confirm click cannot reach Paid
until a new session (with a fresh nonce) is created; a non-mismatch failure
(`"Error"`, `"Not Paid"`) is handled differently and leaves the state
unchanged. -/
theorem claim_C6 : ∀ (st : SessionState) (store : Store) (sid : String),
    st.report_data.isSome = true → st.paid = false → st.stripe_session_id = some sid →
    ((main_confirm store st.payment_nonce sid st.ot_gross st.dt_gross st.tips =
        (false, "Mismatch") →
      ((step st store (Event.confirm false)).1.stripe_session_id = none ∧
       (step st store (Event.confirm false)).1.stripe_url = none ∧
       (step st store (Event.confirm false)).1.paid = false ∧
       ∀ store2 : Store,
         (step (step st store (Event.confirm false)).1 store2 (Event.confirm false)).1.paid =
           false)) ∧
     (∀ r, main_confirm store st.payment_nonce sid st.ot_gross st.dt_gross st.tips =
        (false, r) → r ≠ "Mismatch" → (step st store (Event.confirm false)).1 = st)) := by
  intro st store sid hrep hp hsid
  have hg : st.report_data.isSome = true ∧ ¬st.paid = true ∧ ¬(false : Bool) = true := by
    simp [hrep, hp]
  constructor
  · intro hm
    have hstep : (step st store (Event.confirm false)).1 = reset_payment st := by
      simp only [step, if_pos hg, hsid]
      rw [hm]
      simp
    refine ⟨by rw [hstep]; rfl, by rw [hstep]; rfl, by rw [hstep]; rfl, ?_⟩
    intro store2
    rw [hstep]
    simp [step, reset_payment]
  · intro r hfail hne
    simp only [step, if_pos hg, hsid]
    rw [hfail]
    simp [hne]

/-- C6 witness: a concrete mismatch (amounts edited after the attempt was
minted) voids the session and checkout URL and keeps the paywall unpaid. -/
theorem claim_C6_witness :
    (step
      { initState with report_data := some [], stripe_session_id := some "cs_1",
                       stripe_url := some "u", payment_nonce := "n", ot_gross := 1 }
      [("cs_1", ⟨"paid", some (main_initiate_fingerprint 2 0 0 "n")⟩)]
      (Event.confirm false)).1.stripe_session_id = none :=
  ((claim_C6
      { initState with report_data := some [], stripe_session_id := some "cs_1",
                       stripe_url := some "u", payment_nonce := "n", ot_gross := 1 }
      [("cs_1", ⟨"paid", some (main_initiate_fingerprint 2 0 0 "n")⟩)]
      "cs_1" rfl rfl rfl).1 (by decide)).1

end TaxShield
